import Mathlib

/-!
Verification of the Affluences library-scraper pipeline (`main.py`).

Python strings are modelled as lists of Unicode code points (`Text := List Nat`).
The `unicodedata`-based normalizer is modelled by a finite NFKD decomposition
table covering the accented characters that actually occur in the pipeline's
French inputs (À à Ç ç È è É é Î î), identity elsewhere, together with the
combining-mark range U+0300–U+036F and Python `str.lower` restricted to the
characters reachable after decomposition.  External HTTP collaborators are
modelled as functions (page number to response, identifier to detail result);
numeric JSON values that the pipeline merely passes through are modelled as
`Int`.
-/

/-- A Python string as its sequence of Unicode code points. -/
abbrev Text := List Nat

/-- Embed a Lean string literal as a `Text` value. -/
def S (s : String) : Text := s.data.map Char.toNat

/-- `unicodedata.combining ch != 0` for the combining diacritical marks block
U+0300–U+036F (the only combining characters producible by `decompKD`). -/
def combining (c : Nat) : Bool := decide (0x300 ≤ c ∧ c ≤ 0x36F)

/-- NFKD decomposition (`unicodedata.normalize("NFKD", s)`), restricted to the
accented letters relevant to the pipeline's inputs; identity on all other
code points. -/
def decompKD (c : Nat) : List Nat :=
  if c = 0xC0 then [0x41, 0x300]
  else if c = 0xE0 then [0x61, 0x300]
  else if c = 0xC7 then [0x43, 0x327]
  else if c = 0xE7 then [0x63, 0x327]
  else if c = 0xC8 then [0x45, 0x300]
  else if c = 0xE8 then [0x65, 0x300]
  else if c = 0xC9 then [0x45, 0x301]
  else if c = 0xE9 then [0x65, 0x301]
  else if c = 0xCE then [0x49, 0x302]
  else if c = 0xEE then [0x69, 0x302]
  else [c]

/-- Python `str.lower()` on a single code point, restricted to ASCII letters
and the accented letters of the `decompKD` table; identity elsewhere. -/
def pyLower (c : Nat) : Nat :=
  if 0x41 ≤ c ∧ c ≤ 0x5A then c + 32
  else if c = 0xC0 then 0xE0
  else if c = 0xC7 then 0xE7
  else if c = 0xC8 then 0xE8
  else if c = 0xC9 then 0xE9
  else if c = 0xCE then 0xEE
  else c

/-- The normalization pipeline body of `norm_text`: NFKD-decompose, drop
combining marks, lower-case. -/
def pyNorm (cs : Text) : Text :=
  ((cs.flatMap decompKD).filter (fun c => !combining c)).map pyLower

/-- `norm_text(s)` from `main.py`: returns `""` for absent (`None`) or empty
input, otherwise decomposes, strips combining marks and lower-cases. -/
def norm_text (s : Option Text) : Text :=
  match s with
  | none => []
  | some cs => if cs = [] then [] else pyNorm cs

/-- `c` is an ASCII decimal digit (regex `\d` on the pipeline's ASCII data). -/
def isDigit (c : Nat) : Bool := decide (0x30 ≤ c ∧ c ≤ 0x39)

/-- Python `int(...)` on a run of ASCII digit code points. -/
def digitsToNat (ds : List Nat) : Nat :=
  ds.foldl (fun a d => a * 10 + (d - 0x30)) 0

/-- The first maximal run of decimal digits in a string, scanning left to
right (regex search `\d+`): `none` if no digit occurs. -/
def firstRun : Text → Option (List Nat)
  | [] => none
  | c :: cs => if isDigit c then some (c :: cs.takeWhile isDigit) else firstRun cs

/-- `extract_first_int(s)` from `main.py`: `None` for absent/empty input;
otherwise removes narrow no-break spaces (U+202F) and converts the first
maximal digit run, if any, to an integer. -/
def extract_first_int (s : Option Text) : Option Nat :=
  match s with
  | none => none
  | some cs =>
    if cs = [] then none
    else (firstRun (cs.filter (fun c => c ≠ 0x202F))).map digitsToNat

/-- `needle` occurs at the start of `hay`. -/
def prefixOf : Text → Text → Bool
  | [], _ => true
  | _ :: _, [] => false
  | a :: as, b :: bs => decide (a = b) && prefixOf as bs

/-- Python's substring test `needle in hay`. -/
def substr (needle : Text) : Text → Bool
  | [] => prefixOf needle []
  | b :: bs => prefixOf needle (b :: bs) || substr needle bs

/-- `is_ile_de_france(region_string)` from `main.py`. -/
def is_ile_de_france (region_string : Option Text) : Bool :=
  let r := norm_text region_string
  (substr (S "ile") r && substr (S "france") r)
  || (substr (S "île") r && substr (S "france") r)
  || substr (S "ile-de-france") r
  || substr (S "ile de france") r

/-- One `{title, description}` entry of a site's `infos` list; `none` models a
missing (or JSON-null) key, for which `info.get(k, "")` yields `""`. -/
structure InfoEntry where
  title : Option Text
  description : Option Text
deriving DecidableEq, Repr

/-- The fixed bilingual keyword list of `get_available_seats_from_infos`
(verbatim, including the duplicated entry). -/
def keywords : List Text :=
  [ S "available",
    S "available seats",
    S "available places",
    S "places disponibles",
    S "places disponibles",
    S "places",
    S "places disponibles (approx)",
    S "places disponibles (approx.)",
    S "places disponibles approximatives",
    S "places disponibles approximative" ]

/-- `f"{title} {desc}"` over the normalized title and description of an
entry (`title = norm_text(info.get("title", ""))`, likewise description). -/
def combinedOf (i : InfoEntry) : Text :=
  norm_text (some (i.title.getD [])) ++ 0x20 :: norm_text (some (i.description.getD []))

/-- Python `info.get("description", "") or info.get("title", "")`: the
description when non-empty, else the title (default `""`). -/
def descOrTitle (i : InfoEntry) : Text :=
  let d := i.description.getD []
  if d = [] then i.title.getD [] else d

/-- The inner keyword loop of the first pass: try each keyword in order
against the combined normalized text; on a match, attempt extraction from the
entry's description-or-title, returning the integer if extraction succeeds
and otherwise continuing with the remaining keywords. -/
def tryKeywords (kws : List Text) (c : Text) (i : InfoEntry) : Option Nat :=
  match kws with
  | [] => none
  | kw :: rest =>
    if substr kw c then
      match extract_first_int (some (descOrTitle i)) with
      | some n => some n
      | none => tryKeywords rest c i
    else tryKeywords rest c i

/-- First pass of `get_available_seats_from_infos`: scan entries in order,
returning the first keyword-matched successful extraction. -/
def seatsPassOne : List InfoEntry → Option Nat
  | [] => none
  | i :: rest =>
    match tryKeywords keywords (combinedOf i) i with
    | some n => some n
    | none => seatsPassOne rest

/-- Second (fallback) pass: first successful extraction from any entry's
description-or-title, keyword match ignored. -/
def seatsPassTwo : List InfoEntry → Option Nat
  | [] => none
  | i :: rest =>
    match extract_first_int (some (descOrTitle i)) with
    | some n => some n
    | none => seatsPassTwo rest

/-- `get_available_seats_from_infos(infos)` from `main.py`. -/
def get_available_seats_from_infos (infos : Option (List InfoEntry)) : Option Nat :=
  match infos with
  | none => none
  | some l =>
    if l = [] then none
    else
      match seatsPassOne l with
      | some n => some n
      | none => seatsPassTwo l

/-- A list-endpoint response: HTTP status, raw body text, and the parsed
`data.results` sequence (`payload_json.get("data", {}).get("results", [])`). -/
structure Response (α : Type) where
  status : Nat
  text : Text
  results : List α
deriving DecidableEq, Repr

/-- The `RuntimeError` raised on a non-200 list response, carrying the page
index, the status and the raw body. -/
structure FetchError where
  page : Nat
  status : Nat
  text : Text
deriving DecidableEq, Repr

/-- The `while True` pagination loop of `fetch_all_library_sites`, with the
list endpoint abstracted as a function from page number to response and an
explicit fuel bound (`none` = fuel exhausted before the loop terminated). -/
def fetchAllAux (f : Nat → Response α) :
    Nat → Nat → List α → Option (Except FetchError (List α))
  | 0, _, _ => none
  | fuel + 1, page, acc =>
    let resp := f page
    if resp.status ≠ 200 then some (Except.error ⟨page, resp.status, resp.text⟩)
    else if resp.results.isEmpty then some (Except.ok acc)
    else fetchAllAux f fuel (page + 1) (acc ++ resp.results)

/-- `fetch_all_library_sites` from `main.py`: paginate from page 0,
accumulating results until the first empty page. -/
def fetch_all_library_sites (f : Nat → Response α) (fuel : Nat) :
    Option (Except FetchError (List α)) :=
  fetchAllAux f fuel 0 []

/-- The concatenation, in fetch order, of the results of `k` consecutive
pages starting at `page`. -/
def pagesConcatFrom (f : Nat → Response α) (page : Nat) : Nat → List α
  | 0 => []
  | k + 1 => (f page).results ++ pagesConcatFrom f (page + 1) k

/-- Stand-in for the numeric JSON values (coordinates, occupancy, distance)
that the pipeline passes through without computing on them. -/
abbrev PyNum := Int

/-- The `location.coordinates` mapping of a site summary when truthy
(non-empty); `latitude`/`longitude` are `coords.get(...)`, `none` when the
key is missing or null. -/
structure CoordDict where
  latitude : Option PyNum
  longitude : Option PyNum
deriving DecidableEq, Repr

/-- The `location.address` mapping (fields defaulting to absent when the
`location` or `address` dicts are missing). -/
structure Address where
  region : Option Text
  route : Option Text
  city : Option Text
deriving DecidableEq, Repr

/-- A `RawSiteSummary` as read from the list endpoint.  `coordinates = none`
models a falsy (missing or empty) `location.coordinates` dict.  The
`current_forecast_occupancy` and `url` fields model the same-named keys on
the summary dict itself, read only when the summary is substituted for a
failed detail fetch (normally absent on summaries). -/
structure SiteSummary where
  id : Option PyNum
  slug : Option Text
  primary_name : Option Text
  concat_name : Option Text
  address : Address
  coordinates : Option CoordDict
  estimated_distance : Option PyNum
  infos : Option (List InfoEntry)
  current_forecast_occupancy : Option PyNum
  url : Option Text
deriving DecidableEq, Repr

/-- A `RawSiteDetail`: the `data` dict of a detail response, projected to the
keys `main` reads (`infos`, `current_forecast.occupancy`, `url`). -/
structure SiteDetail where
  infos : Option (List InfoEntry)
  current_forecast_occupancy : Option PyNum
  url : Option Text
deriving DecidableEq, Repr

/-- `detail = s`: the summary dict viewed through the detail-field accessors
after the fallback on a failed detail fetch. -/
def summaryAsDetail (s : SiteSummary) : SiteDetail :=
  ⟨s.infos, s.current_forecast_occupancy, s.url⟩

/-- `s.get("slug") or s.get("id")`: the slug when truthy (present and
non-empty), else the id (which may itself be absent). -/
abbrev Ident := Option (Text ⊕ PyNum)

/-- Compute the identifier passed to the detail fetch. -/
def identOf (s : SiteSummary) : Ident :=
  match s.slug with
  | some t => if t = [] then s.id.map Sum.inr else some (Sum.inl t)
  | none => s.id.map Sum.inr

/-- The exception raised by a failed `fetch_site_detail` (identifier and
status; the contents are only printed in the warning). -/
structure DetailError where
  ident : Ident
  status : Nat
deriving DecidableEq, Repr

/-- The output row assembled by `main` for one surviving site. -/
structure EnrichedRecord where
  id : Option PyNum
  slug : Option Text
  name : Option Text
  address : Address
  latitude : Option PyNum
  longitude : Option PyNum
  available_seats : Option Nat
  occupancy_percent : Option PyNum
  estimated_distance_m : Option PyNum
  detail_url : Option Text
deriving DecidableEq, Repr

/-- The body of `main`'s per-site loop: fetch the detail (falling back to the
summary itself on failure), choose the infos source, extract seats, read
occupancy and coordinates, and assemble the `EnrichedRecord`. -/
def enrich (f : Ident → Except DetailError SiteDetail) (s : SiteSummary) :
    EnrichedRecord :=
  let detail :=
    match f (identOf s) with
    | Except.ok d => d
    | Except.error _ => summaryAsDetail s
  let di := detail.infos.getD []
  let infos := if di = [] then s.infos.getD [] else di
  let available_seats := get_available_seats_from_infos (some infos)
  let lat := match s.coordinates with
    | some c => c.latitude
    | none => none
  let lon := match s.coordinates with
    | some c => c.longitude
    | none => none
  { id := s.id
    slug := s.slug
    name :=
      match s.primary_name with
      | some t => if t = [] then s.concat_name else some t
      | none => s.concat_name
    address := s.address
    latitude := lat
    longitude := lon
    available_seats := available_seats
    occupancy_percent := detail.current_forecast_occupancy
    estimated_distance_m := s.estimated_distance
    detail_url := detail.url }

/-- `region = addr.get("region", "") or ""`. -/
def regionOf (s : SiteSummary) : Text := s.address.region.getD []

/-- The orchestration core of `main`, with the fetched summary list and the
detail collaborator as inputs: filter the sites by region, then enrich each
surviving site in order (the pagination stage is `fetch_all_library_sites`;
the CSV/map emission consumes this sequence unchanged). -/
def mainEnriched (f : Ident → Except DetailError SiteDetail)
    (all_sites : List SiteSummary) : List EnrichedRecord :=
  (all_sites.filter (fun s => is_ile_de_france (some (regionOf s)))).map (enrich f)

theorem decompKD_output_fixed (c e : Nat) (he : e ∈ decompKD c) :
    decompKD e = [e] := by
  by_cases h1 : c = 0xC0
  · subst h1; simp [decompKD] at he
    rcases he with rfl | rfl <;> decide
  by_cases h2 : c = 0xE0
  · subst h2; simp [decompKD] at he
    rcases he with rfl | rfl <;> decide
  by_cases h3 : c = 0xC7
  · subst h3; simp [decompKD] at he
    rcases he with rfl | rfl <;> decide
  by_cases h4 : c = 0xE7
  · subst h4; simp [decompKD] at he
    rcases he with rfl | rfl <;> decide
  by_cases h5 : c = 0xC8
  · subst h5; simp [decompKD] at he
    rcases he with rfl | rfl <;> decide
  by_cases h6 : c = 0xE8
  · subst h6; simp [decompKD] at he
    rcases he with rfl | rfl <;> decide
  by_cases h7 : c = 0xC9
  · subst h7; simp [decompKD] at he
    rcases he with rfl | rfl <;> decide
  by_cases h8 : c = 0xE9
  · subst h8; simp [decompKD] at he
    rcases he with rfl | rfl <;> decide
  by_cases h9 : c = 0xCE
  · subst h9; simp [decompKD] at he
    rcases he with rfl | rfl <;> decide
  by_cases h10 : c = 0xEE
  · subst h10; simp [decompKD] at he
    rcases he with rfl | rfl <;> decide
  have hdef : decompKD c = [c] := by
    unfold decompKD
    rw [if_neg h1, if_neg h2, if_neg h3, if_neg h4, if_neg h5, if_neg h6,
      if_neg h7, if_neg h8, if_neg h9, if_neg h10]
  rw [hdef] at he
  simp only [List.mem_singleton] at he
  subst he
  exact hdef

theorem pyLower_good (c : Nat) (h0 : decompKD c = [c]) (h1 : combining c = false) :
    decompKD (pyLower c) = [pyLower c] ∧ combining (pyLower c) = false ∧
      pyLower (pyLower c) = pyLower c := by
  by_cases hA : 0x41 ≤ c ∧ c ≤ 0x5A
  · have h2 : pyLower c = c + 32 := by
      unfold pyLower
      rw [if_pos hA]
    rw [h2]
    have e1 : c + 32 ≠ 0xC0 := by omega
    have e2 : c + 32 ≠ 0xE0 := by omega
    have e3 : c + 32 ≠ 0xC7 := by omega
    have e4 : c + 32 ≠ 0xE7 := by omega
    have e5 : c + 32 ≠ 0xC8 := by omega
    have e6 : c + 32 ≠ 0xE8 := by omega
    have e7 : c + 32 ≠ 0xC9 := by omega
    have e8 : c + 32 ≠ 0xE9 := by omega
    have e9 : c + 32 ≠ 0xCE := by omega
    have e0 : c + 32 ≠ 0xEE := by omega
    have g1 : ¬(0x41 ≤ c + 32 ∧ c + 32 ≤ 0x5A) := by omega
    refine ⟨?_, ?_, ?_⟩
    · unfold decompKD
      rw [if_neg e1, if_neg e2, if_neg e3, if_neg e4, if_neg e5, if_neg e6,
        if_neg e7, if_neg e8, if_neg e9, if_neg e0]
    · simp only [combining, decide_eq_false_iff_not]
      omega
    · unfold pyLower
      rw [if_neg g1, if_neg e1, if_neg e3, if_neg e5, if_neg e7, if_neg e9]
  · have hK1 : c ≠ 0xC0 := by rintro rfl; exact absurd h0 (by decide)
    have hK2 : c ≠ 0xC7 := by rintro rfl; exact absurd h0 (by decide)
    have hK3 : c ≠ 0xC8 := by rintro rfl; exact absurd h0 (by decide)
    have hK4 : c ≠ 0xC9 := by rintro rfl; exact absurd h0 (by decide)
    have hK5 : c ≠ 0xCE := by rintro rfl; exact absurd h0 (by decide)
    have h2 : pyLower c = c := by
      unfold pyLower
      rw [if_neg hA, if_neg hK1, if_neg hK2, if_neg hK3, if_neg hK4, if_neg hK5]
    rw [h2]
    exact ⟨h0, h1, h2⟩

theorem prefixOf_iff (a b : Text) : prefixOf a b = true ↔ ∃ t, a ++ t = b := by
  induction a generalizing b with
  | nil => simp [prefixOf]
  | cons x xs ih =>
    cases b with
    | nil =>
      simp [prefixOf]
    | cons y ys =>
      simp only [prefixOf, Bool.and_eq_true, decide_eq_true_eq, ih, List.cons_append,
        List.cons.injEq]
      constructor
      · rintro ⟨rfl, t, rfl⟩
        exact ⟨t, rfl, rfl⟩
      · rintro ⟨t, rfl, rfl⟩
        exact ⟨rfl, t, rfl⟩

theorem substr_iff (needle hay : Text) :
    substr needle hay = true ↔ ∃ p t, p ++ (needle ++ t) = hay := by
  induction hay with
  | nil =>
    simp only [substr, prefixOf_iff]
    constructor
    · rintro ⟨t, ht⟩
      exact ⟨[], t, ht⟩
    · rintro ⟨p, t, ht⟩
      simp only [List.append_eq_nil] at ht
      exact ⟨[], by simp [ht.2.1]⟩
  | cons y ys ih =>
    simp only [substr, Bool.or_eq_true, prefixOf_iff, ih]
    constructor
    · rintro (⟨t, ht⟩ | ⟨p, t, ht⟩)
      · exact ⟨[], t, by simpa using ht⟩
      · exact ⟨y :: p, t, by simp [ht]⟩
    · rintro ⟨p, t, ht⟩
      cases p with
      | nil => exact Or.inl ⟨t, by simpa using ht⟩
      | cons z zs =>
        simp only [List.cons_append, List.cons.injEq] at ht
        exact Or.inr ⟨zs, t, ht.2⟩

theorem substr_trans {a b c : Text} (h1 : substr a b = true)
    (h2 : substr b c = true) : substr a c = true := by
  rw [substr_iff] at h1 h2 ⊢
  obtain ⟨p, t, rfl⟩ := h1
  obtain ⟨q, u, rfl⟩ := h2
  exact ⟨q ++ p, t ++ u, by simp [List.append_assoc]⟩

theorem good_output (c d : Nat) (hd : d ∈ pyNorm [c]) :
    decompKD d = [d] ∧ combining d = false ∧ pyLower d = d := by
  simp only [pyNorm, List.flatMap_cons, List.flatMap_nil, List.append_nil,
    List.mem_map, List.mem_filter, Bool.not_eq_true'] at hd
  obtain ⟨e, ⟨he, hcomb⟩, rfl⟩ := hd
  exact pyLower_good e (decompKD_output_fixed c e he) hcomb

theorem pyNorm_append (a b : Text) : pyNorm (a ++ b) = pyNorm a ++ pyNorm b := by
  simp [pyNorm]

theorem mem_pyNorm_good (s : Text) (d : Nat) (hd : d ∈ pyNorm s) :
    decompKD d = [d] ∧ combining d = false ∧ pyLower d = d := by
  induction s with
  | nil => simp [pyNorm] at hd
  | cons c cs ih =>
    have hsplit : pyNorm (c :: cs) = pyNorm [c] ++ pyNorm cs := by
      rw [← pyNorm_append]
      simp
    rw [hsplit, List.mem_append] at hd
    rcases hd with h | h
    · exact good_output c d h
    · exact ih h

theorem pyNorm_fixed (s : Text)
    (h : ∀ d ∈ s, decompKD d = [d] ∧ combining d = false ∧ pyLower d = d) :
    pyNorm s = s := by
  induction s with
  | nil => rfl
  | cons c cs ih =>
    obtain ⟨h0, h1, h2⟩ := h c (List.mem_cons_self c cs)
    have hrest := ih (fun d hd => h d (List.mem_cons_of_mem c hd))
    have hc : pyNorm [c] = [c] := by
      simp [pyNorm, h0, h1, h2]
    have hsplit : pyNorm (c :: cs) = pyNorm [c] ++ pyNorm cs := by
      rw [← pyNorm_append]
      simp
    rw [hsplit, hc, hrest]
    rfl

/-- C9: the text normalizer is idempotent: normalizing an already-normalized
string (over any input, including absent and empty) returns it unchanged. -/
theorem claim_C9_norm_text_idempotent (x : Option Text) :
    norm_text (some (norm_text x)) = norm_text x := by
  cases x with
  | none => rfl
  | some cs =>
    by_cases hcs : cs = []
    · subst hcs
      rfl
    · have hin : norm_text (some cs) = pyNorm cs := by
        simp only [norm_text, if_neg hcs]
      rw [hin]
      by_cases hp : pyNorm cs = []
      · simp [norm_text, hp]
      · simp only [norm_text, if_neg hp]
        exact pyNorm_fixed _ (fun d hd => mem_pyNorm_good cs d hd)

/-- C4: `is_ile_de_france` decides exactly the disjunction of the two token
tests ("ile" with "france", in accented or unaccented form) and the two
compound forms, all over the normalized region text; the spec's concrete
examples evaluate as stated, including empty and absent input. -/
theorem claim_C4_is_ile_de_france :
    (∀ x : Option Text,
      is_ile_de_france x = true ↔
        ((substr (S "ile") (norm_text x) = true ∧ substr (S "france") (norm_text x) = true)
          ∨ (substr (S "île") (norm_text x) = true ∧ substr (S "france") (norm_text x) = true)
          ∨ substr (S "ile-de-france") (norm_text x) = true
          ∨ substr (S "ile de france") (norm_text x) = true))
    ∧ is_ile_de_france (some (S "Île-de-France")) = true
    ∧ is_ile_de_france (some (S "ILE DE FRANCE")) = true
    ∧ is_ile_de_france (some (S "Region Ile-de-France")) = true
    ∧ is_ile_de_france (some (S "Bretagne")) = false
    ∧ is_ile_de_france (some (S "")) = false
    ∧ is_ile_de_france none = false := by
  refine ⟨?_, ?_, ?_, ?_, ?_, ?_, ?_⟩
  · intro x
    simp [is_ile_de_france, Bool.or_eq_true, Bool.and_eq_true, or_assoc]
  all_goals decide

theorem firstRun_none (t : Text) (h : ∀ c ∈ t, isDigit c = false) :
    firstRun t = none := by
  induction t with
  | nil => rfl
  | cons c cs ih =>
    rw [firstRun, if_neg]
    · exact ih (fun d hd => h d (List.mem_cons_of_mem c hd))
    · simp [h c (List.mem_cons_self c cs)]

theorem firstRun_skip (pre l : Text) (h : ∀ c ∈ pre, isDigit c = false) :
    firstRun (pre ++ l) = firstRun l := by
  induction pre with
  | nil => rfl
  | cons c cs ih =>
    rw [List.cons_append, firstRun, if_neg]
    · exact ih (fun d hd => h d (List.mem_cons_of_mem c hd))
    · simp [h c (List.mem_cons_self c cs)]

theorem takeWhile_append_of_all (p : Nat → Bool) (ds post : Text)
    (h : ∀ c ∈ ds, p c = true) :
    List.takeWhile p (ds ++ post) = ds ++ List.takeWhile p post := by
  induction ds with
  | nil => rfl
  | cons c cs ih =>
    rw [List.cons_append, List.takeWhile_cons, h c (List.mem_cons_self c cs)]
    rw [ih (fun d hd => h d (List.mem_cons_of_mem c hd))]
    rfl

/-- C5: `extract_first_int` returns absent on absent/empty input, evaluates
the spec's concrete examples as stated (including the narrow no-break space
stripping and the period non-stripping), returns absent when no digit
occurs, and in general returns the value of the first maximal digit run. -/
theorem claim_C5_extract_first_int :
    extract_first_int none = none
    ∧ extract_first_int (some []) = none
    ∧ extract_first_int (some (S "places disponibles : 42")) = some 42
    ∧ extract_first_int (some (S "aucune info")) = none
    ∧ extract_first_int (some (S "1\u202F234 places")) = some 1234
    ∧ extract_first_int (some (S "1.234 places")) = some 1
    ∧ (∀ s : Text, (∀ c ∈ s, isDigit c = false) → extract_first_int (some s) = none)
    ∧ (∀ pre digits post : Text,
        (∀ c ∈ pre, isDigit c = false) →
        0x202F ∉ pre →
        digits ≠ [] →
        (∀ c ∈ digits, isDigit c = true) →
        (∀ c ∈ post.take 1, isDigit c = false) →
        0x202F ∉ post →
        extract_first_int (some (pre ++ (digits ++ post))) = some (digitsToNat digits)) := by
  refine ⟨?e1, ?e2, ?e3, ?e4, ?e5, ?e6, ?g1, ?g2⟩
  case e1 | e2 | e3 | e4 | e5 | e6 => decide
  case g1 =>
    intro s h
    rw [extract_first_int]
    by_cases hs : s = []
    · rw [if_pos hs]
    · rw [if_neg hs]
      rw [firstRun_none _ (fun c hc => h c (List.mem_of_mem_filter hc))]
      rfl
  · intro pre digits post hpre hpre202 hne hdig hpost hpost202
    have hnodigit202 : ∀ c, isDigit c = true → c ≠ 0x202F := by
      intro c hc
      simp only [isDigit, decide_eq_true_eq] at hc
      omega
    have hfilter : (pre ++ (digits ++ post)).filter (fun c => c ≠ 0x202F) =
        pre ++ (digits ++ post) := by
      rw [List.filter_eq_self]
      intro a ha
      rcases List.mem_append.mp ha with h | h
      · simp only [ne_eq, decide_eq_true_eq]
        intro hcontra
        exact hpre202 (hcontra ▸ h)
      rcases List.mem_append.mp h with h | h
      · simp [hnodigit202 a (hdig a h)]
      · simp only [ne_eq, decide_eq_true_eq]
        intro hcontra
        exact hpost202 (hcontra ▸ h)
    have hmain : firstRun (pre ++ (digits ++ post)) = some digits := by
      rw [firstRun_skip pre _ hpre]
      cases digits with
      | nil => exact absurd rfl hne
      | cons d ds =>
        rw [List.cons_append, firstRun,
          if_pos (hdig d (List.mem_cons_self d ds)),
          takeWhile_append_of_all _ ds post
            (fun c hc => hdig c (List.mem_cons_of_mem d hc))]
        have hpost' : List.takeWhile isDigit post = [] := by
          cases post with
          | nil => rfl
          | cons q qs =>
            rw [List.takeWhile_cons, hpost q (by simp)]
            rfl
        rw [hpost']
        simp
    have hnonnil : pre ++ (digits ++ post) ≠ [] := by
      simp [List.append_eq_nil]
      intro _ h _
      exact hne h
    rw [extract_first_int, if_neg hnonnil, hfilter, hmain]
    rfl

/-- The keyword test of the first pass: some keyword occurs in the entry's
combined normalized title-and-description text. -/
def keywordMatches (i : InfoEntry) : Bool :=
  keywords.any (fun kw => substr kw (combinedOf i))

theorem tryKeywords_eq (kws : List Text) (c : Text) (i : InfoEntry) :
    tryKeywords kws c i =
      if kws.any (fun kw => substr kw c)
      then extract_first_int (some (descOrTitle i)) else none := by
  induction kws with
  | nil => rfl
  | cons kw rest ih =>
    simp only [tryKeywords, List.any_cons]
    cases hE : extract_first_int (some (descOrTitle i)) with
    | some n =>
      by_cases h : substr kw c = true
      · simp [h, hE]
      · simp [h, hE, ih]
    | none =>
      by_cases h : substr kw c = true
      · simp [h, hE, ih]
      · simp [h, hE, ih]

theorem keywordMatches_eq_core (i : InfoEntry) :
    keywordMatches i =
      (substr (S "available") (combinedOf i) || substr (S "places") (combinedOf i)) := by
  by_cases hA : substr (S "available") (combinedOf i) = true
  · simp [keywordMatches, keywords, List.any_cons, hA]
  · by_cases hP : substr (S "places") (combinedOf i) = true
    · simp [keywordMatches, keywords, List.any_cons, hP]
    · have contra : ∀ kw : Text,
          substr (S "available") kw = true ∨ substr (S "places") kw = true →
          substr kw (combinedOf i) = false := by
        intro kw hkw
        rw [Bool.eq_false_iff]
        intro h2
        rcases hkw with h | h
        · exact hA (substr_trans h h2)
        · exact hP (substr_trans h h2)
      have hA' : substr (S "available") (combinedOf i) = false := Bool.eq_false_iff.mpr hA
      have hP' : substr (S "places") (combinedOf i) = false := Bool.eq_false_iff.mpr hP
      simp [keywordMatches, keywords, List.any_cons, hA', hP',
        contra (S "available seats") (Or.inl (by decide)),
        contra (S "available places") (Or.inl (by decide)),
        contra (S "places disponibles") (Or.inr (by decide)),
        contra (S "places disponibles (approx)") (Or.inr (by decide)),
        contra (S "places disponibles (approx.)") (Or.inr (by decide)),
        contra (S "places disponibles approximatives") (Or.inr (by decide)),
        contra (S "places disponibles approximative") (Or.inr (by decide))]

theorem seatsPassOne_entry (i : InfoEntry) :
    tryKeywords keywords (combinedOf i) i =
      if keywordMatches i then extract_first_int (some (descOrTitle i)) else none :=
  tryKeywords_eq keywords (combinedOf i) i

theorem seatsPassOne_append_none (pre l : List InfoEntry)
    (h : ∀ j ∈ pre, tryKeywords keywords (combinedOf j) j = none) :
    seatsPassOne (pre ++ l) = seatsPassOne l := by
  induction pre with
  | nil => rfl
  | cons j js ih =>
    rw [List.cons_append, seatsPassOne, h j (List.mem_cons_self j js)]
    exact ih (fun d hd => h d (List.mem_cons_of_mem j hd))

theorem seatsPassOne_none (l : List InfoEntry)
    (h : ∀ j ∈ l, ¬(keywordMatches j = true ∧
      extract_first_int (some (descOrTitle j)) ≠ none)) :
    seatsPassOne l = none := by
  induction l with
  | nil => rfl
  | cons j js ih =>
    rw [seatsPassOne, seatsPassOne_entry]
    have hj := h j (List.mem_cons_self j js)
    have hrest := ih (fun d hd => h d (List.mem_cons_of_mem j hd))
    by_cases hk : keywordMatches j = true
    · have hext : extract_first_int (some (descOrTitle j)) = none := by
        by_contra hne
        exact hj ⟨hk, hne⟩
      rw [if_pos hk, hext]
      exact hrest
    · rw [if_neg hk]
      exact hrest

theorem seatsPassTwo_append_none (pre l : List InfoEntry)
    (h : ∀ j ∈ pre, extract_first_int (some (descOrTitle j)) = none) :
    seatsPassTwo (pre ++ l) = seatsPassTwo l := by
  induction pre with
  | nil => rfl
  | cons j js ih =>
    rw [List.cons_append, seatsPassTwo, h j (List.mem_cons_self j js)]
    exact ih (fun d hd => h d (List.mem_cons_of_mem j hd))

theorem seatsPassTwo_none (l : List InfoEntry)
    (h : ∀ j ∈ l, extract_first_int (some (descOrTitle j)) = none) :
    seatsPassTwo l = none := by
  induction l with
  | nil => rfl
  | cons j js ih =>
    rw [seatsPassTwo, h j (List.mem_cons_self j js)]
    exact ih (fun d hd => h d (List.mem_cons_of_mem j hd))

theorem get_seats_eq (l : List InfoEntry) (hne : l ≠ []) :
    get_available_seats_from_infos (some l) =
      match seatsPassOne l with
      | some n => some n
      | none => seatsPassTwo l := by
  simp only [get_available_seats_from_infos, if_neg hne]

/-- C1: the keyword pass scans entries in order; the first entry whose
combined normalized text matches some keyword and whose description-or-title
yields an integer determines the result, regardless of later entries; and the
spec's two-entry example yields 12. -/
theorem claim_C1_first_matching_entry_wins :
    (∀ (pre : List InfoEntry) (i : InfoEntry) (post : List InfoEntry) (n : Nat),
      (∀ j ∈ pre, ¬(keywordMatches j = true ∧
        extract_first_int (some (descOrTitle j)) ≠ none)) →
      keywordMatches i = true →
      extract_first_int (some (descOrTitle i)) = some n →
      get_available_seats_from_infos (some (pre ++ i :: post)) = some n)
    ∧ get_available_seats_from_infos (some
        [⟨some (S "Horaires"), some (S "9h-18h")⟩,
         ⟨some (S "Places disponibles"), some (S "12 places libres")⟩]) = some 12 := by
  constructor
  · intro pre i post n hpre hkw hext
    have hne : pre ++ i :: post ≠ [] := by simp
    have hpre' : ∀ j ∈ pre, tryKeywords keywords (combinedOf j) j = none := by
      intro j hj
      rw [seatsPassOne_entry]
      by_cases hk : keywordMatches j = true
      · have : extract_first_int (some (descOrTitle j)) = none := by
          by_contra hno
          exact hpre j hj ⟨hk, hno⟩
        rw [if_pos hk, this]
      · rw [if_neg hk]
    have h1 : seatsPassOne (pre ++ i :: post) = some n := by
      rw [seatsPassOne_append_none pre _ hpre', seatsPassOne, seatsPassOne_entry,
        if_pos hkw, hext]
    rw [get_seats_eq _ hne, h1]
  · decide

/-- C2: when no entry both keyword-matches and yields an integer, the result
is the first integer extracted from any entry in order (the fallback pass);
if no entry yields an integer, or the infos list is empty or absent, the
result is absent; and the spec's bare-number example yields 50. -/
theorem claim_C2_fallback_pass :
    (∀ (pre : List InfoEntry) (i : InfoEntry) (post : List InfoEntry) (n : Nat),
      (∀ j ∈ pre ++ i :: post, ¬(keywordMatches j = true ∧
        extract_first_int (some (descOrTitle j)) ≠ none)) →
      (∀ j ∈ pre, extract_first_int (some (descOrTitle j)) = none) →
      extract_first_int (some (descOrTitle i)) = some n →
      get_available_seats_from_infos (some (pre ++ i :: post)) = some n)
    ∧ (∀ l : List InfoEntry,
        (∀ j ∈ l, extract_first_int (some (descOrTitle j)) = none) →
        get_available_seats_from_infos (some l) = none)
    ∧ get_available_seats_from_infos none = none
    ∧ get_available_seats_from_infos (some []) = none
    ∧ get_available_seats_from_infos (some
        [⟨some (S "Note"), some (S "Capacité totale 50")⟩]) = some 50 := by
  refine ⟨?_, ?_, rfl, rfl, by decide⟩
  · intro pre i post n hnokw hpre hext
    have hne : pre ++ i :: post ≠ [] := by simp
    have h1 : seatsPassOne (pre ++ i :: post) = none := seatsPassOne_none _ hnokw
    have h2 : seatsPassTwo (pre ++ i :: post) = some n := by
      rw [seatsPassTwo_append_none pre _ hpre, seatsPassTwo, hext]
    rw [get_seats_eq _ hne, h1, h2]
  · intro l h
    cases hl : l with
    | nil => rfl
    | cons j js =>
      subst hl
      have h1 : seatsPassOne (j :: js) = none := by
        apply seatsPassOne_none
        intro d hd
        rintro ⟨-, hne⟩
        exact hne (h d hd)
      have h2 : seatsPassTwo (j :: js) = none := seatsPassTwo_none _ h
      rw [get_seats_eq _ (by simp), h1, h2]

/-- C10: the keyword test is equivalent to testing only for the substrings
"available" and "places" in the combined normalized text — every keyword in
the fixed list contains one of these two as a substring, so the longer
keywords never change which entries match, and the whole inner keyword loop
behaves as that two-substring test guarding a single extraction. -/
theorem claim_C10_keyword_test_equivalence :
    (∀ i : InfoEntry,
      tryKeywords keywords (combinedOf i) i =
        if substr (S "available") (combinedOf i) || substr (S "places") (combinedOf i)
        then extract_first_int (some (descOrTitle i)) else none)
    ∧ (∀ i : InfoEntry,
        keywordMatches i =
          (substr (S "available") (combinedOf i) || substr (S "places") (combinedOf i)))
    ∧ (∀ kw ∈ keywords,
        substr (S "available") kw = true ∨ substr (S "places") kw = true) := by
  refine ⟨?_, keywordMatches_eq_core, by decide⟩
  intro i
  rw [tryKeywords_eq, ← keywordMatches_eq_core i]
  rfl

theorem claim_C5_extract_first_int_witness :
    extract_first_int (some (S "abc 42 x")) = some (digitsToNat (S "42"))
    ∧ extract_first_int (some (S "no digit here")) = none := by
  constructor
  · refine claim_C5_extract_first_int.2.2.2.2.2.2.2 (S "abc ") (S "42") (S " x")
      ?_ ?_ ?_ ?_ ?_ ?_ <;> decide
  · exact claim_C5_extract_first_int.2.2.2.2.2.2.1 (S "no digit here") (by decide)

theorem claim_C1_first_matching_entry_wins_witness :
    get_available_seats_from_infos
      (some [InfoEntry.mk (some (S "Places disponibles")) (some (S "12 places libres"))])
      = some 12 :=
  claim_C1_first_matching_entry_wins.1 []
    (InfoEntry.mk (some (S "Places disponibles")) (some (S "12 places libres"))) [] 12
    (by simp) (by decide) (by decide)

theorem claim_C2_fallback_pass_witness :
    get_available_seats_from_infos
      (some [InfoEntry.mk (some (S "Note")) (some (S "Capacité totale 50"))]) = some 50
    ∧ get_available_seats_from_infos
      (some [InfoEntry.mk (some (S "aucune")) (some (S "info"))]) = none := by
  constructor
  · exact claim_C2_fallback_pass.1 []
      (InfoEntry.mk (some (S "Note")) (some (S "Capacité totale 50"))) [] 50
      (by decide) (by simp) (by decide)
  · exact claim_C2_fallback_pass.2.1
      [InfoEntry.mk (some (S "aucune")) (some (S "info"))] (by decide)

theorem claim_C10_keyword_test_equivalence_witness :
    substr (S "available") (S "available seats") = true
    ∨ substr (S "places") (S "available seats") = true :=
  claim_C10_keyword_test_equivalence.2.2 (S "available seats") (by decide)

theorem pagesConcatFrom_congr {α : Type} (f g : Nat → Response α) (k : Nat) :
    ∀ page, (∀ i, i < k → g (page + i) = f (page + i)) →
    pagesConcatFrom g page k = pagesConcatFrom f page k := by
  induction k with
  | zero => intro page _; rfl
  | succ k ih =>
    intro page hagree
    rw [pagesConcatFrom, pagesConcatFrom]
    have h0 : g page = f page := by
      have := hagree 0 (by omega)
      simpa using this
    rw [h0, ih (page + 1) (fun i hi => by
      have := hagree (i + 1) (by omega)
      rwa [show page + (i + 1) = page + 1 + i by omega] at this)]

theorem fetchAllAux_ok {α : Type} (f : Nat → Response α) (k : Nat) :
    ∀ (fuel page : Nat) (acc : List α),
    (∀ i, i < k → (f (page + i)).status = 200 ∧ (f (page + i)).results ≠ []) →
    (f (page + k)).status = 200 →
    (f (page + k)).results = [] →
    k < fuel →
    fetchAllAux f fuel page acc = some (Except.ok (acc ++ pagesConcatFrom f page k)) := by
  induction k with
  | zero =>
    intro fuel page acc _ hst hres hfuel
    cases fuel with
    | zero => omega
    | succ fuel =>
      rw [Nat.add_zero] at hst hres
      simp only [fetchAllAux, hst, hres]
      simp [pagesConcatFrom]
  | succ k ih =>
    intro fuel page acc hok hst hres hfuel
    cases fuel with
    | zero => omega
    | succ fuel =>
      obtain ⟨h200, hne⟩ := by
        have := hok 0 (by omega)
        rwa [Nat.add_zero] at this
      simp only [fetchAllAux, h200]
      rw [if_neg (by simp), if_neg (by simpa [List.isEmpty_iff] using hne)]
      have hok' : ∀ i, i < k →
          (f (page + 1 + i)).status = 200 ∧ (f (page + 1 + i)).results ≠ [] := by
        intro i hi
        have := hok (i + 1) (by omega)
        rwa [show page + (i + 1) = page + 1 + i by omega] at this
      have hst' : (f (page + 1 + k)).status = 200 := by
        rwa [show page + (k + 1) = page + 1 + k by omega] at hst
      have hres' : (f (page + 1 + k)).results = [] := by
        rwa [show page + (k + 1) = page + 1 + k by omega] at hres
      rw [ih fuel (page + 1) (acc ++ (f page).results) hok' hst' hres' (by omega)]
      rw [pagesConcatFrom, List.append_assoc]

theorem fetchAllAux_error {α : Type} (f : Nat → Response α) (k : Nat) :
    ∀ (fuel page : Nat) (acc : List α),
    (∀ i, i < k → (f (page + i)).status = 200 ∧ (f (page + i)).results ≠ []) →
    (f (page + k)).status ≠ 200 →
    k < fuel →
    fetchAllAux f fuel page acc =
      some (Except.error ⟨page + k, (f (page + k)).status, (f (page + k)).text⟩) := by
  induction k with
  | zero =>
    intro fuel page acc _ hbad hfuel
    cases fuel with
    | zero => omega
    | succ fuel =>
      rw [Nat.add_zero] at hbad
      simp only [fetchAllAux]
      rw [if_pos hbad, Nat.add_zero]
  | succ k ih =>
    intro fuel page acc hok hbad hfuel
    cases fuel with
    | zero => omega
    | succ fuel =>
      obtain ⟨h200, hne⟩ := by
        have := hok 0 (by omega)
        rwa [Nat.add_zero] at this
      simp only [fetchAllAux, h200]
      rw [if_neg (by simp), if_neg (by simpa [List.isEmpty_iff] using hne)]
      have hok' : ∀ i, i < k →
          (f (page + 1 + i)).status = 200 ∧ (f (page + 1 + i)).results ≠ [] := by
        intro i hi
        have := hok (i + 1) (by omega)
        rwa [show page + (i + 1) = page + 1 + i by omega] at this
      have hbad' : (f (page + 1 + k)).status ≠ 200 := by
        rwa [show page + (k + 1) = page + 1 + k by omega] at hbad
      rw [ih fuel (page + 1) (acc ++ (f page).results) hok' hbad' (by omega)]
      rw [show page + 1 + k = page + (k + 1) by omega]

/-- C6: when pages `0..k-1` are successful and non-empty and page `k` is
successful and empty, `fetch_all_library_sites` returns the concatenation of
the non-empty pages' results in fetch order; and the result depends only on
the responses of pages `0..k` (one call per page up to and including the
first empty page), so any collaborator agreeing on those pages yields the
same result. -/
theorem claim_C6_pagination {α : Type} (f : Nat → Response α) (k fuel : Nat)
    (hok : ∀ i, i < k → (f i).status = 200 ∧ (f i).results ≠ [])
    (hst : (f k).status = 200) (hres : (f k).results = [])
    (hfuel : k < fuel) :
    fetch_all_library_sites f fuel = some (Except.ok (pagesConcatFrom f 0 k))
    ∧ ∀ g : Nat → Response α, (∀ i, i ≤ k → g i = f i) →
        fetch_all_library_sites g fuel = some (Except.ok (pagesConcatFrom f 0 k)) := by
  constructor
  · have := fetchAllAux_ok f k fuel 0 []
      (fun i hi => by simpa using hok i hi)
      (by simpa using hst) (by simpa using hres) hfuel
    simpa [fetch_all_library_sites] using this
  · intro g hagree
    have hokg : ∀ i, i < k → (g (0 + i)).status = 200 ∧ (g (0 + i)).results ≠ [] := by
      intro i hi
      rw [show (0 : Nat) + i = i by omega, hagree i (by omega)]
      exact hok i hi
    have hstg : (g (0 + k)).status = 200 := by
      rw [show (0 : Nat) + k = k by omega, hagree k (by omega)]
      exact hst
    have hresg : (g (0 + k)).results = [] := by
      rw [show (0 : Nat) + k = k by omega, hagree k (by omega)]
      exact hres
    have := fetchAllAux_ok g k fuel 0 [] hokg hstg hresg hfuel
    rw [fetch_all_library_sites, this, List.nil_append,
      pagesConcatFrom_congr f g k 0 (fun i hi => by
        rw [show (0 : Nat) + i = i by omega]
        exact hagree i (by omega))]

/-- C8: when pages `0..k-1` are successful and non-empty and page `k` has a
non-success status, `fetch_all_library_sites` fails with an error carrying
that page's index, status and raw body, returning no partial results; the
outcome depends only on pages `0..k` (the failed request is not retried and
no later page is fetched). -/
theorem claim_C8_transport_failure {α : Type} (f : Nat → Response α) (k fuel : Nat)
    (hok : ∀ i, i < k → (f i).status = 200 ∧ (f i).results ≠ [])
    (hbad : (f k).status ≠ 200)
    (hfuel : k < fuel) :
    fetch_all_library_sites f fuel =
      some (Except.error ⟨k, (f k).status, (f k).text⟩)
    ∧ ∀ g : Nat → Response α, (∀ i, i ≤ k → g i = f i) →
        fetch_all_library_sites g fuel =
          some (Except.error ⟨k, (f k).status, (f k).text⟩) := by
  constructor
  · have := fetchAllAux_error f k fuel 0 []
      (fun i hi => by simpa using hok i hi) (by simpa using hbad) hfuel
    simpa [fetch_all_library_sites] using this
  · intro g hagree
    have hokg : ∀ i, i < k → (g (0 + i)).status = 200 ∧ (g (0 + i)).results ≠ [] := by
      intro i hi
      rw [show (0 : Nat) + i = i by omega, hagree i (by omega)]
      exact hok i hi
    have hbadg : (g (0 + k)).status ≠ 200 := by
      rw [show (0 : Nat) + k = k by omega, hagree k (by omega)]
      exact hbad
    have := fetchAllAux_error g k fuel 0 [] hokg hbadg hfuel
    rw [fetch_all_library_sites, this]
    rw [show (0 : Nat) + k = k by omega, hagree k (by omega)]

/-- A fake list collaborator: two non-empty pages then empty pages. -/
def exPages : Nat → Response Nat :=
  fun p =>
    if p = 0 then ⟨200, S "ok", [1, 2]⟩
    else if p = 1 then ⟨200, S "ok", [3]⟩
    else ⟨200, S "ok", []⟩

/-- A collaborator agreeing with `exPages` on pages 0–2 and degenerate after. -/
def exPagesTail : Nat → Response Nat :=
  fun p => if p ≤ 2 then exPages p else ⟨500, S "later", [9]⟩

/-- A fake list collaborator whose second page fails with status 500. -/
def exPagesBad : Nat → Response Nat :=
  fun p => if p = 0 then ⟨200, S "ok", [1, 2]⟩ else ⟨500, S "boom", [7]⟩

theorem claim_C6_pagination_witness :
    fetch_all_library_sites exPages 3 = some (Except.ok [1, 2, 3])
    ∧ fetch_all_library_sites exPagesTail 3 = some (Except.ok [1, 2, 3]) := by
  have h := claim_C6_pagination exPages 2 3
    (by intro i hi; interval_cases i <;> exact ⟨by decide, by decide⟩)
    (by decide) (by decide) (by omega)
  constructor
  · rw [h.1]
    rfl
  · rw [h.2 exPagesTail (by intro i hi; interval_cases i <;> decide)]
    rfl

theorem claim_C8_transport_failure_witness :
    fetch_all_library_sites exPagesBad 3 =
      some (Except.error ⟨1, 500, S "boom"⟩) := by
  have h := claim_C8_transport_failure exPagesBad 1 3
    (by intro i hi; interval_cases i; exact ⟨by decide, by decide⟩)
    (by decide) (by omega)
  rw [h.1]
  rfl

/-- A detail collaborator that always succeeds with an empty detail. -/
def exDetailOk : Ident → Except DetailError SiteDetail :=
  fun _ => Except.ok ⟨none, none, none⟩

/-- A detail collaborator that always fails with status 500. -/
def exDetailFail : Ident → Except DetailError SiteDetail :=
  fun i => Except.error ⟨i, 500⟩

/-- A summary whose coordinates mapping carries a latitude but no longitude. -/
def exLopsidedSite : SiteSummary :=
  { id := some 1
    slug := some (S "site-x")
    primary_name := some (S "Site X")
    concat_name := none
    address := ⟨some (S "Île-de-France"), none, none⟩
    coordinates := some ⟨some 42, none⟩
    estimated_distance := none
    infos := none
    current_forecast_occupancy := none
    url := none }

/-- A summary whose coordinates mapping has both latitude and longitude. -/
def exBalancedSite : SiteSummary :=
  { id := some 2
    slug := some (S "site-y")
    primary_name := some (S "Site Y")
    concat_name := none
    address := ⟨some (S "Île-de-France"), none, none⟩
    coordinates := some ⟨some 48, some 2⟩
    estimated_distance := none
    infos := none
    current_forecast_occupancy := none
    url := none }

/-- A summary with seat infos of its own and no forecast field. -/
def exSummaryWithInfos : SiteSummary :=
  { id := some 3
    slug := some (S "site-z")
    primary_name := some (S "Site Z")
    concat_name := none
    address := ⟨some (S "Ile de France"), none, none⟩
    coordinates := none
    estimated_distance := none
    infos := some [⟨some (S "Places disponibles"), some (S "12 places libres")⟩]
    current_forecast_occupancy := none
    url := none }

/-- Presence pattern of a record's coordinate pair. -/
def latLonPresence (r : EnrichedRecord) : Bool × Bool :=
  (r.latitude.isSome, r.longitude.isSome)

/-- C3 (counterexample): from a summary whose (truthy) coordinates mapping
has only a latitude, the orchestrator emits a record with the latitude
present and the longitude absent, so the both-or-neither invariant fails
over arbitrary input summaries. -/
theorem claim_C3_counterexample :
    (mainEnriched exDetailOk [exLopsidedSite]).map latLonPresence = [(true, false)] := by
  rfl

/-- C3 (amended): whenever every input summary's coordinates mapping, when
present, has latitude and longitude both present or both absent, every
emitted record has them both present or both absent (the orchestrator copies
the pair verbatim, and absent coordinates yield both absent). -/
theorem claim_C3_latlon_presence (f : Ident → Except DetailError SiteDetail)
    (sites : List SiteSummary)
    (hbal : ∀ s ∈ sites, ∀ c, s.coordinates = some c →
      (c.latitude = none ↔ c.longitude = none)) :
    ∀ r ∈ mainEnriched f sites, (r.latitude = none ↔ r.longitude = none) := by
  intro r hr
  rw [mainEnriched] at hr
  obtain ⟨s, hs, rfl⟩ := List.mem_map.mp hr
  have hsin : s ∈ sites := List.mem_of_mem_filter hs
  cases hc : s.coordinates with
  | none => simp [enrich, hc]
  | some c =>
    have := hbal s hsin c hc
    simpa [enrich, hc] using this

theorem claim_C3_latlon_presence_witness :
    (enrich exDetailOk exBalancedSite).latitude = none ↔
      (enrich exDetailOk exBalancedSite).longitude = none := by
  refine claim_C3_latlon_presence exDetailOk [exBalancedSite] ?_ _ ?_
  · intro s hs c hc
    simp only [List.mem_singleton] at hs
    subst hs
    simp only [exBalancedSite] at hc
    injection hc with hc
    subst hc
    simp
  · decide

/-- C7: a failed detail fetch does not abort the run: the site still yields
an `EnrichedRecord` in place (the summary substitutes for the detail), with
`available_seats` computed from the summary's own infos and
`occupancy_percent` read from the summary's (normally absent) forecast
field. -/
theorem claim_C7_detail_failure_fallback
    (f : Ident → Except DetailError SiteDetail)
    (pre : List SiteSummary) (s : SiteSummary) (post : List SiteSummary)
    (e : DetailError)
    (hfail : f (identOf s) = Except.error e)
    (hreg : is_ile_de_france (some (regionOf s)) = true) :
    mainEnriched f (pre ++ s :: post) =
      mainEnriched f pre ++ enrich f s :: mainEnriched f post
    ∧ (enrich f s).available_seats =
        get_available_seats_from_infos (some (s.infos.getD []))
    ∧ (enrich f s).occupancy_percent = s.current_forecast_occupancy
    ∧ (enrich f s).id = s.id := by
  refine ⟨?_, ?_, ?_, ?_⟩
  · rw [mainEnriched, List.filter_append, List.filter_cons_of_pos (by exact hreg),
      List.map_append, List.map_cons]
    rfl
  · simp only [enrich, hfail, summaryAsDetail]
    by_cases hdi : s.infos.getD [] = []
    · rw [if_pos hdi]
    · rw [if_neg hdi]
  · simp [enrich, hfail, summaryAsDetail]
  · simp [enrich, hfail, summaryAsDetail]

theorem claim_C7_detail_failure_fallback_witness :
    mainEnriched exDetailFail [exSummaryWithInfos] =
      [enrich exDetailFail exSummaryWithInfos]
    ∧ (enrich exDetailFail exSummaryWithInfos).available_seats =
        get_available_seats_from_infos (some (exSummaryWithInfos.infos.getD []))
    ∧ (enrich exDetailFail exSummaryWithInfos).available_seats = some 12 := by
  have h := claim_C7_detail_failure_fallback exDetailFail [] exSummaryWithInfos []
    ⟨identOf exSummaryWithInfos, 500⟩ rfl (by decide)
  exact ⟨h.1, h.2.1, by decide⟩
